import Mathlib

/-
  Verification of the request/response correlation layer of AbletonMCP
  (src/ableton_control/osc_client/client.py, class AbletonOSCClient).

  The client keeps a dict `pending_responses : Dict[str, Any]` mapping an
  OSC reply address to the args tuple of the most recently received message
  at that address.  A background listener thread (BlockingOSCUDPServer
  running `serve_forever`) dispatches every inbound message matching
  the pattern "/live/*" to `_handle_live_response`, which overwrites the
  dict entry for that address and then invokes a custom handler from
  `response_handlers` when one is registered for the exact address.
  `send_and_wait` pops any existing entry for the reply address, sends the
  request (swallowing transport errors), and then polls the dict until the
  entry appears or the timeout elapses.

  The embedding below is a faithful shallow model: the dict becomes an
  association list, wall-clock time becomes a schedule of delivery batches
  (the listener thread runs concurrently with the caller, so batches of
  inbound messages may land between any two steps of the correlator:
  between the pop and the send, and before each poll-loop check), and a
  Python function that may raise is embedded with an Except return type.
-/

set_option autoImplicit false

/-- An OSC argument value.  The wire format carries integers, floats,
strings and booleans-as-integers; the correlation layer treats them as
opaque, so floats are represented exactly (as rationals) since no claim
performs float arithmetic. -/
inductive OSCVal where
  | intV : Int → OSCVal
  | floatV : Rat → OSCVal
  | strV : String → OSCVal
  | boolV : Bool → OSCVal
deriving DecidableEq, Repr

/-- The args tuple of one OSC message. -/
abbrev Args := List OSCVal

/-- One inbound message: (address, args). -/
abbrev Msg := String × Args

/-- The `pending_responses` dict, embedded as an association list from
address to the most recently stored args. -/
abbrev Store := List (String × Args)

/-- First-match lookup in an association list (dict access). -/
def lookupFirst {α : Type} : List (String × α) → String → Option α
  | [], _ => none
  | (a, v) :: s, b => if a = b then some v else lookupFirst s b

/-- Dict lookup: `pending_responses.get(a)` / `a in pending_responses`. -/
def storeGet (s : Store) (a : String) : Option Args :=
  lookupFirst s a

/-- Dict deletion: `pending_responses.pop(a, None)` discarding the result.
Removes every entry for `a` (a dict holds at most one). -/
def storeErase : Store → String → Store
  | [], _ => []
  | (a, v) :: s, b => if a = b then storeErase s b else (a, v) :: storeErase s b

/-- Dict overwrite: `pending_responses[a] = v` (last write wins). -/
def storePut (s : Store) (a : String) (v : Args) : Store :=
  (a, v) :: storeErase s a

/-- The listener thread writing a batch of inbound messages into the store,
in arrival order, each via the unconditional overwrite of
`_handle_live_response`. -/
def applyDeliveries (s : Store) (ds : List Msg) : Store :=
  ds.foldl (fun acc m => storePut acc m.1 m.2) s

/-- The last value delivered to address `a` in a batch, if any. -/
def lastTo : List Msg → String → Option Args
  | [], _ => none
  | m :: ds, a =>
      match lastTo ds a with
      | some v => some v
      | none => if m.1 = a then some m.2 else none

/-- The sub-batch of deliveries addressed to `a`. -/
def onlyTo (a : String) (ds : List Msg) : List Msg :=
  ds.filter (fun m => decide (m.1 = a))

theorem lookupFirst_erase_self (s : Store) (a : String) :
    lookupFirst (storeErase s a) a = none := by
  induction s with
  | nil => rfl
  | cons p s ih =>
      obtain ⟨x, v⟩ := p
      by_cases h : x = a
      · simp only [storeErase, if_pos h]
        exact ih
      · simp only [storeErase, if_neg h, lookupFirst]
        exact ih

theorem lookupFirst_erase_ne (s : Store) (a b : String) (h : b ≠ a) :
    lookupFirst (storeErase s a) b = lookupFirst s b := by
  induction s with
  | nil => rfl
  | cons p s ih =>
      obtain ⟨x, v⟩ := p
      by_cases hx : x = a
      · simp only [storeErase, if_pos hx, lookupFirst, ih]
        rw [if_neg (hx ▸ fun hc => h (hc ▸ hx ▸ rfl))]
      · simp only [storeErase, if_neg hx, lookupFirst, ih]

@[simp] theorem storeGet_erase_self (s : Store) (a : String) :
    storeGet (storeErase s a) a = none := by
  simp only [storeGet]
  exact lookupFirst_erase_self s a

theorem storeGet_erase_ne (s : Store) (a b : String) (h : b ≠ a) :
    storeGet (storeErase s a) b = storeGet s b := by
  simp only [storeGet]
  exact lookupFirst_erase_ne s a b h

@[simp] theorem storeGet_put_self (s : Store) (a : String) (v : Args) :
    storeGet (storePut s a v) a = some v := by
  simp [storePut, storeGet, lookupFirst]

theorem storeGet_put_ne (s : Store) (a b : String) (v : Args) (h : b ≠ a) :
    storeGet (storePut s a v) b = storeGet s b := by
  simp only [storePut, storeGet, lookupFirst]
  rw [if_neg (fun hc => h hc.symm)]
  exact lookupFirst_erase_ne s a b h

theorem storeErase_idem (s : Store) (a : String) :
    storeErase (storeErase s a) a = storeErase s a := by
  induction s with
  | nil => rfl
  | cons p s ih =>
      obtain ⟨x, v⟩ := p
      by_cases h : x = a
      · simp [storeErase, h, ih]
      · simp [storeErase, h, ih]

theorem lastTo_eq_none_iff (ds : List Msg) (a : String) :
    lastTo ds a = none ↔ ∀ m ∈ ds, m.1 ≠ a := by
  induction ds with
  | nil => simp [lastTo]
  | cons m ds ih =>
      constructor
      · intro h
        simp only [lastTo] at h
        rcases hl : lastTo ds a with _ | v
        · rw [hl] at h
          simp only at h
          intro m' hm'
          rcases List.mem_cons.mp hm' with h1 | h2
          · subst h1
            intro hcon
            rw [if_pos hcon] at h
            exact Option.noConfusion h
          · exact (ih.mp hl) m' h2
        · rw [hl] at h
          exact Option.noConfusion h
      · intro h
        simp only [lastTo]
        rw [ih.mpr (fun m' hm' => h m' (List.mem_cons_of_mem m hm'))]
        simp only
        rw [if_neg (h m (List.mem_cons_self m ds))]

theorem lastTo_mem (ds : List Msg) (a : String) (v : Args)
    (h : lastTo ds a = some v) : (a, v) ∈ ds := by
  induction ds with
  | nil => exact Option.noConfusion h
  | cons m ds ih =>
      simp only [lastTo] at h
      rcases hl : lastTo ds a with _ | w
      · rw [hl] at h
        simp only at h
        by_cases hm : m.1 = a
        · rw [if_pos hm] at h
          have : m = (a, v) := by
            obtain ⟨m1, m2⟩ := m
            simp at hm h
            simp [hm, h]
          rw [← this]
          exact List.mem_cons_self m ds
        · rw [if_neg hm] at h
          exact Option.noConfusion h
      · rw [hl] at h
        injection h with h
        subst h
        exact List.mem_cons_of_mem m (ih hl)

theorem lastTo_onlyTo (ds : List Msg) (a : String) :
    lastTo (onlyTo a ds) a = lastTo ds a := by
  induction ds with
  | nil => rfl
  | cons m ds ih =>
      by_cases h : m.1 = a
      · simp only [onlyTo, List.filter] at ih ⊢
        rw [decide_eq_true h]
        simp only [lastTo, ih]
      · simp only [onlyTo, List.filter] at ih ⊢
        rw [decide_eq_false h]
        simp only [lastTo, ih]
        rcases lastTo ds a with _ | v
        · simp [h]
        · simp

theorem applyDeliveries_get (ds : List Msg) (s : Store) (a : String) :
    storeGet (applyDeliveries s ds) a =
      match lastTo ds a with
      | some v => some v
      | none => storeGet s a := by
  induction ds generalizing s with
  | nil => simp [applyDeliveries, lastTo]
  | cons m ds ih =>
      simp only [applyDeliveries, List.foldl] at ih ⊢
      rw [ih (storePut s m.1 m.2)]
      simp only [lastTo]
      rcases lastTo ds a with _ | v
      · simp only
        by_cases hm : m.1 = a
        · rw [if_pos hm, hm]
          simp
        · rw [if_neg hm]
          exact storeGet_put_ne s m.1 a m.2 (fun hc => hm hc.symm)
      · simp

/-- Outcome of the poll loop in `send_and_wait`: either the reply address
appeared at some check (value returned, entry popped from the store), or the
deadline elapsed. -/
inductive PollOutcome where
  | found : Args → Store → PollOutcome
  | timedOut : Store → PollOutcome
deriving DecidableEq, Repr

/-- The value a PollOutcome delivers to the caller. -/
def PollOutcome.val : PollOutcome → Option Args
  | .found v _ => some v
  | .timedOut _ => none

/-- The store as the loop leaves it. -/
def PollOutcome.store : PollOutcome → Store
  | .found _ s => s
  | .timedOut s => s

/-- The wait loop of `send_and_wait`:

  while time.time() - start_time < timeout:
      if response_address in self.pending_responses:
          response = self.pending_responses.pop(response_address)
          return response
      await asyncio.sleep(0.01)

Wall-clock time is abstracted into the schedule: `batches` holds one batch
of listener deliveries per loop iteration that fits inside `timeout`
(deliveries land during the `await asyncio.sleep(0.01)` that precedes the
membership check, the listener thread running concurrently).  An empty
batch is an iteration in which nothing arrived. -/
def pollLoop (addr : String) : Store → List (List Msg) → PollOutcome
  | s, [] => .timedOut s
  | s, b :: bs =>
      match storeGet (applyDeliveries s b) addr with
      | some v => .found v (storeErase (applyDeliveries s b) addr)
      | none => pollLoop addr (applyDeliveries s b) bs

theorem pollLoop_found_mem (a : String) (bs : List (List Msg)) (s : Store)
    (v : Args) (s2 : Store) (h : pollLoop a s bs = .found v s2) :
    storeGet s a = some v ∨ ∃ b ∈ bs, (a, v) ∈ b := by
  induction bs generalizing s with
  | nil => exact PollOutcome.noConfusion h
  | cons b bs ih =>
      simp only [pollLoop] at h
      rcases hg : storeGet (applyDeliveries s b) a with _ | w
      · rw [hg] at h
        rcases ih (applyDeliveries s b) h with hs | ⟨b2, hb2, hm⟩
        · rw [hs] at hg
          exact Option.noConfusion hg
        · exact Or.inr ⟨b2, List.mem_cons_of_mem b hb2, hm⟩
      · rw [hg] at h
        injection h with h1 h2
        subst h1
        rw [applyDeliveries_get] at hg
        rcases hl : lastTo b a with _ | u
        · rw [hl] at hg
          exact Or.inl hg
        · rw [hl] at hg
          injection hg with hg
          subst hg
          exact Or.inr ⟨b, List.mem_cons_self b bs, lastTo_mem b a _ hl⟩

theorem pollLoop_found_store_none (a : String) (bs : List (List Msg))
    (s : Store) (v : Args) (s2 : Store) (h : pollLoop a s bs = .found v s2) :
    storeGet s2 a = none := by
  induction bs generalizing s with
  | nil => exact PollOutcome.noConfusion h
  | cons b bs ih =>
      simp only [pollLoop] at h
      rcases hg : storeGet (applyDeliveries s b) a with _ | w
      · rw [hg] at h
        exact ih (applyDeliveries s b) h
      · rw [hg] at h
        injection h with h1 h2
        subst h2
        exact storeGet_erase_self (applyDeliveries s b) a

theorem pollLoop_timeout_of_no_delivery (a : String) (bs : List (List Msg))
    (s : Store) (hs : storeGet s a = none)
    (hbs : ∀ b ∈ bs, ∀ m ∈ b, m.1 ≠ a) :
    ∃ s2, pollLoop a s bs = .timedOut s2 := by
  induction bs generalizing s with
  | nil => exact ⟨s, rfl⟩
  | cons b bs ih =>
      have hb : lastTo b a = none :=
        (lastTo_eq_none_iff b a).mpr (hbs b (List.mem_cons_self b bs))
      have hg : storeGet (applyDeliveries s b) a = none := by
        rw [applyDeliveries_get, hb]
        exact hs
      simp only [pollLoop, hg]
      exact ih (applyDeliveries s b) hg
        (fun b2 hb2 => hbs b2 (List.mem_cons_of_mem b hb2))

theorem pollLoop_found_of_delivery (a : String) (bs : List (List Msg))
    (s : Store) (hd : ∃ b ∈ bs, ∃ m ∈ b, m.1 = a) :
    ∃ v s2, pollLoop a s bs = .found v s2 := by
  induction bs generalizing s with
  | nil =>
      obtain ⟨b, hb, _⟩ := hd
      exact absurd hb (List.not_mem_nil b)
  | cons b bs ih =>
      rcases hg : storeGet (applyDeliveries s b) a with _ | w
      · obtain ⟨b2, hb2, m, hm, hma⟩ := hd
        rcases List.mem_cons.mp hb2 with h1 | h2
        · subst h1
          have : lastTo b2 a ≠ none := by
            intro hc
            exact ((lastTo_eq_none_iff b2 a).mp hc) m hm hma
          rcases hl : lastTo b2 a with _ | u
          · exact absurd hl this
          · rw [applyDeliveries_get, hl] at hg
            exact Option.noConfusion hg
        · obtain ⟨v, s2, hres⟩ := ih (applyDeliveries s b) ⟨b2, h2, m, hm, hma⟩
          refine ⟨v, s2, ?_⟩
          simp only [pollLoop, hg]
          exact hres
      · refine ⟨w, storeErase (applyDeliveries s b) a, ?_⟩
        simp only [pollLoop, hg]

theorem pollLoop_val_onlyTo (a : String) (bs : List (List Msg))
    (s t : Store) (hst : storeGet s a = storeGet t a) :
    (pollLoop a s bs).val = (pollLoop a t (bs.map (onlyTo a))).val := by
  induction bs generalizing s t with
  | nil => rfl
  | cons b bs ih =>
      have hg : storeGet (applyDeliveries s b) a =
          storeGet (applyDeliveries t (onlyTo a b)) a := by
        rw [applyDeliveries_get, applyDeliveries_get, lastTo_onlyTo]
        rcases lastTo b a with _ | v
        · exact hst
        · rfl
      simp only [List.map, pollLoop]
      rcases hgs : storeGet (applyDeliveries s b) a with _ | w
      · rw [hgs] at hg
        rw [← hg]
        exact ih (applyDeliveries s b) (applyDeliveries t (onlyTo a b)) (hgs.trans hg)
      · rw [hgs] at hg
        rw [← hg]
        rfl

/-- The value handed to `SimpleUDPClient.send_message` by `send`:

  self.client.send_message(address, args if len(args) > 1 else (args[0] if args else []))

A multi-argument call passes the tuple, a single argument is unwrapped,
and no arguments become the empty list. -/
inductive SendPayload where
  | tuple : Args → SendPayload
  | single : OSCVal → SendPayload
  | emptyList : SendPayload
deriving DecidableEq, Repr

/-- The payload computation inside `send`. -/
def sendPayload (args : Args) : SendPayload :=
  if args.length > 1 then .tuple args
  else
    match args with
    | [] => .emptyList
    | a :: _ => .single a

deriving instance DecidableEq for Except

/-- What one call of `send` produces.  `returned` is what the caller of
`send` observes (a normal return, embedded as `Except.ok`, or a raised
exception, embedded as `Except.error`); `payload` is what was handed to the
transport; `loggedError` records whether the except-branch ran. -/
structure SendOutcome where
  returned : Except String Unit
  payload : SendPayload
  loggedError : Bool
deriving DecidableEq, Repr

/-- `AbletonOSCClient.send`:

  try:
      self.client.send_message(address, ...)
      logger.debug(...)
  except Exception as e:
      logger.error(f"Failed to send OSC message ...")

`transport` is the behaviour of the underlying
`SimpleUDPClient.send_message` call on this input: `Except.ok ()` when
serialization and the socket write succeed, `Except.error e` when either
raises.  The except-branch catches every exception, logs it and falls off
the end of the function, so `send` always returns normally. -/
def sendRun (address : String) (args : Args)
    (transport : Except String Unit) : SendOutcome :=
  match transport with
  | .ok _ => { returned := Except.ok (), payload := sendPayload args, loggedError := false }
  | .error _ => { returned := Except.ok (), payload := sendPayload args, loggedError := true }

/-- The observable result of one `send_and_wait` call. -/
structure SAWResult where
  /-- The value returned to the caller (None on timeout). -/
  result : Option Args
  /-- The pending-reply store at the moment `send_and_wait` returns. -/
  finalStore : Store
  /-- What the inner `self.send(address, *args)` call returned to
  `send_and_wait`; always a normal return because `send` swallows
  transport errors. -/
  sendReturned : Except String Unit
  /-- Whether the timeout warning was logged (the
  `logger.warning(f"Timeout waiting for response to ...")` line). -/
  warnedTimeout : Bool
deriving DecidableEq, Repr

/-- `AbletonOSCClient.send_and_wait(address, response_address, *args, timeout)`:

  self.pending_responses.pop(response_address, None)
  self.send(address, *args)
  start_time = time.time()
  while time.time() - start_time < timeout:
      if response_address in self.pending_responses:
          response = self.pending_responses.pop(response_address)
          return response
      await asyncio.sleep(0.01)
  logger.warning(...)
  return None

`transport` is the behaviour of the underlying datagram send (see
`sendRun`).  The listener thread runs concurrently: `preEmitDeliveries`
are the messages it writes into the store in the window between the pop
and the completion of the `self.send` call, and `batches` holds the
messages written before each subsequent poll-loop check; the number of
checks that fit inside `timeout` is the length of `batches`. -/
def sendAndWaitRun (store : Store) (requestAddr : String) (replyAddr : String)
    (requestArgs : Args) (transport : Except String Unit)
    (preEmitDeliveries : List Msg) (batches : List (List Msg)) : SAWResult :=
  let cleared := storeErase store replyAddr
  let sent := sendRun requestAddr requestArgs transport
  let polled := pollLoop replyAddr (applyDeliveries cleared preEmitDeliveries) batches
  match polled with
  | .found v s2 =>
      { result := some v, finalStore := s2
        sendReturned := sent.returned, warnedTimeout := false }
  | .timedOut s2 =>
      { result := none, finalStore := s2
        sendReturned := sent.returned, warnedTimeout := true }

/-- The `response_handlers : Dict[str, Callable]` table.  Callbacks are
identified by an opaque id; invoking one is recorded as (id, args). -/
abbrev HandlerTable := List (String × Nat)

/-- The observable effect of one `_handle_live_response(address, *args)`
call: the updated `pending_responses` store and the list of custom-handler
invocations it performed. -/
structure HandleResult where
  store : Store
  calls : List (Nat × Args)
deriving DecidableEq, Repr

/-- `AbletonOSCClient._handle_live_response(address, *args)` — the default
callback the dispatcher runs for every inbound message matching the
catch-all pattern "/live/*":

  self.pending_responses[address] = args
  if address in self.response_handlers:
      self.response_handlers[address](args)

The store write is an unconditional overwrite, and a registered
exact-address custom handler is then invoked with the same args. -/
def handleLiveResponse (store : Store) (handlers : HandlerTable)
    (address : String) (args : Args) : HandleResult :=
  { store := storePut store address args
    calls :=
      match lookupFirst handlers address with
      | some hid => [(hid, args)]
      | none => [] }

/-- The state of the listener server (`BlockingOSCUDPServer`).
`serve_forever` runs while `loopRunning`; the UDP socket bound to
`(host, receive_port)` stays bound while `socketBound`.  Per the standard
socketserver semantics, `shutdown()` stops the serve_forever loop and
waits for it to exit but does not close the socket — only
`server_close()` (never called in this code) would unbind it. -/
structure ServerSt where
  loopRunning : Bool
  socketBound : Bool
deriving DecidableEq, Repr

/-- The listener thread (`self.server_thread`). -/
structure ThreadSt where
  alive : Bool
deriving DecidableEq, Repr

/-- The connection-relevant state of an `AbletonOSCClient` instance:
`self.server`, `self.server_thread` (both None until `connect`), and the
outbound `SimpleUDPClient` socket created in `__init__` (never closed
anywhere in the class). -/
structure ClientSt where
  server : Option ServerSt
  serverThread : Option ThreadSt
  sendSocketOpen : Bool
deriving DecidableEq, Repr

/-- `self.server.shutdown()`: stops the serve_forever loop; the listening
socket remains bound (no `server_close()` is ever issued). -/
def serverShutdown (sv : ServerSt) : ServerSt :=
  { sv with loopRunning := false }

/-- `self.server_thread.join(timeout=1.0)`: the loop has just been stopped,
so serve_forever returns and the thread finishes. -/
def threadJoin (t : ThreadSt) : ThreadSt :=
  { t with alive := false }

/-- `AbletonOSCClient.disconnect`:

  if self.server:
      self.server.shutdown()
  if self.server_thread:
      self.server_thread.join(timeout=1.0)
  logger.info("Disconnected from Ableton Live")

Neither socket is closed; `self.server` and `self.server_thread` are not
reset to None. -/
def disconnectRun (c : ClientSt) : ClientSt :=
  let c1 :=
    match c.server with
    | some sv => { c with server := some (serverShutdown sv) }
    | none => c
  match c1.serverThread with
  | some t => { c1 with serverThread := some (threadJoin t) }
  | none => c1

/-- The OSC address used both as request and reply address of the tempo
query. -/
def tempoAddr : String := "/live/song/get/tempo"

/-- The reply/request address of the track-count query. -/
def numTracksAddr : String := "/live/song/get/num_tracks"

/-- The timeout (seconds) passed to `send_and_wait` by the effective
`get_live_version` — the connectivity test that `connect` runs. -/
def getLiveVersionTimeout : Rat := 2

/-- The effective `AbletonOSCClient.get_live_version`.  The class body
defines `get_live_version` twice; the second definition (line 267) shadows
the first, so the version that actually runs is:

  try:
      response = await self.send_and_wait("/live/song/get/tempo", "/live/song/get/tempo", timeout=2.0)
      if response is not None:
          return "Ableton Live (connected via AbletonOSC)"
      return None
  except Exception as e:
      logger.error(...)
      return None

Note the check is `is not None`, not truthiness: any reply, even with an
empty args tuple, counts as connected. -/
def getLiveVersionRun (store : Store) (transport : Except String Unit)
    (preEmitDeliveries : List Msg) (batches : List (List Msg)) : Option String :=
  match (sendAndWaitRun store tempoAddr tempoAddr [] transport
      preEmitDeliveries batches).result with
  | some _ => some "Ableton Live (connected via AbletonOSC)"
  | none => none

/-- `AbletonOSCClient.connect`:

  try:
      self.server = BlockingOSCUDPServer((self.host, self.receive_port), self.dispatcher)
      self.server_thread = threading.Thread(target=self.server.serve_forever)
      self.server_thread.daemon = True
      self.server_thread.start()
      test_result = await self.get_live_version()
      if test_result:
          return True
      else:
          return False
  except Exception as e:
      logger.error(f"Failed to start OSC client: {e}")
      return False

`bind` is the behaviour of the `BlockingOSCUDPServer` constructor
(`Except.error` when binding `(host, receive_port)` raises, e.g. the port
is already in use).  On a bind error the assignment to `self.server` never
happens and the thread is never created, so the state keeps its
`__init__` values; the except-branch catches the exception and returns
False.  The first component of the result is what the caller observes
(always a normal return carrying a Bool). -/
def connectRun (bind : Except String Unit) (store : Store)
    (transport : Except String Unit) (preEmitDeliveries : List Msg)
    (batches : List (List Msg)) : Except String Bool × ClientSt :=
  match bind with
  | .error _ =>
      (Except.ok false,
        { server := none, serverThread := none, sendSocketOpen := true })
  | .ok _ =>
      let st : ClientSt :=
        { server := some { loopRunning := true, socketBound := true }
          serverThread := some { alive := true }
          sendSocketOpen := true }
      match getLiveVersionRun store transport preEmitDeliveries batches with
      | some v => (if v = "" then Except.ok false else Except.ok true, st)
      | none => (Except.ok false, st)

/-- The result postprocessing shared by `get_tempo` and `get_track_count`:

  return response[0] if response else None

Python truthiness makes both None and the empty tuple falsy, so an
empty-args reply maps to None exactly like a timeout. -/
def firstArgOrNone (response : Option Args) : Option OSCVal :=
  match response with
  | none => none
  | some [] => none
  | some (a :: _) => some a

/-- `AbletonOSCClient.get_tempo`: `send_and_wait` on
"/live/song/get/tempo" (as both request and reply address, no args),
then `response[0] if response else None`. -/
def getTempoRun (store : Store) (transport : Except String Unit)
    (preEmitDeliveries : List Msg) (batches : List (List Msg)) : Option OSCVal :=
  firstArgOrNone (sendAndWaitRun store tempoAddr tempoAddr [] transport
    preEmitDeliveries batches).result

/-- `AbletonOSCClient.get_track_count`: `send_and_wait` on
"/live/song/get/num_tracks", then `response[0] if response else None`. -/
def getTrackCountRun (store : Store) (transport : Except String Unit)
    (preEmitDeliveries : List Msg) (batches : List (List Msg)) : Option OSCVal :=
  firstArgOrNone (sendAndWaitRun store numTracksAddr numTracksAddr [] transport
    preEmitDeliveries batches).result

theorem applyDeliveries_get_some (ds : List Msg) (s : Store) (a : String)
    (v : Args) (h : lastTo ds a = some v) :
    storeGet (applyDeliveries s ds) a = some v := by
  rw [applyDeliveries_get, h]

theorem applyDeliveries_get_none (ds : List Msg) (s : Store) (a : String)
    (h : lastTo ds a = none) :
    storeGet (applyDeliveries s ds) a = storeGet s a := by
  rw [applyDeliveries_get, h]

/-- Characterization of one `send_and_wait` run in terms of its poll loop. -/
theorem sendAndWaitRun_eq_parts (store : Store) (requestAddr replyAddr : String)
    (args : Args) (transport : Except String Unit) (pre : List Msg)
    (batches : List (List Msg)) :
    sendAndWaitRun store requestAddr replyAddr args transport pre batches =
      { result := (pollLoop replyAddr
            (applyDeliveries (storeErase store replyAddr) pre) batches).val
        finalStore := (pollLoop replyAddr
            (applyDeliveries (storeErase store replyAddr) pre) batches).store
        sendReturned := (sendRun requestAddr args transport).returned
        warnedTimeout := (pollLoop replyAddr
            (applyDeliveries (storeErase store replyAddr) pre) batches).val.isNone } := by
  simp only [sendAndWaitRun]
  cases pollLoop replyAddr (applyDeliveries (storeErase store replyAddr) pre) batches <;> rfl

/-- If a run returns a value, that value was delivered by the listener
after the clear: either in the pop-to-send window or before some poll. -/
theorem run_found_mem (store : Store) (a : String) (pre : List Msg)
    (batches : List (List Msg)) (v : Args) (s2 : Store)
    (h : pollLoop a (applyDeliveries (storeErase store a) pre) batches
      = .found v s2) :
    (a, v) ∈ pre ∨ ∃ b ∈ batches, (a, v) ∈ b := by
  rcases pollLoop_found_mem a batches _ v s2 h with hg | hb
  · rcases hl : lastTo pre a with _ | u
    · rw [applyDeliveries_get_none pre _ a hl, storeGet_erase_self] at hg
      exact Option.noConfusion hg
    · rw [applyDeliveries_get_some pre _ a u hl] at hg
      injection hg with hg
      subst hg
      exact Or.inl (lastTo_mem pre a _ hl)
  · exact Or.inr hb

/-- If the listener delivers nothing to the reply address, the poll loop
times out. -/
theorem run_timeout (store : Store) (a : String) (pre : List Msg)
    (batches : List (List Msg)) (hpre : ∀ m ∈ pre, m.1 ≠ a)
    (hb : ∀ b ∈ batches, ∀ m ∈ b, m.1 ≠ a) :
    ∃ s2, pollLoop a (applyDeliveries (storeErase store a) pre) batches
      = .timedOut s2 := by
  apply pollLoop_timeout_of_no_delivery
  · rw [applyDeliveries_get_none pre _ a ((lastTo_eq_none_iff pre a).mpr hpre),
      storeGet_erase_self]
  · exact hb

/-- C1: a `send_and_wait(requestAddress, replyAddress, args, timeout)` call
first removes any existing pending entry for the reply address (the run is
unchanged if the entry is pre-erased), then emits the request (the inner
send always returns normally), then polls the store: if an entry for the
reply address appears before the deadline the call removes it from the
store and returns its args (the returned value is one the listener
delivered, and the final store no longer holds the address; conversely a
delivery before some poll guarantees a value is returned), and if no entry
appears within the timeout it logs the warning and returns None rather
than raising. -/
theorem send_and_wait_correct (store : Store) (requestAddr replyAddr : String)
    (args : Args) (transport : Except String Unit) (pre : List Msg)
    (batches : List (List Msg)) :
    sendAndWaitRun store requestAddr replyAddr args transport pre batches
      = sendAndWaitRun (storeErase store replyAddr) requestAddr replyAddr args
          transport pre batches
    ∧ (sendAndWaitRun store requestAddr replyAddr args transport pre
        batches).sendReturned = Except.ok ()
    ∧ (∀ v, (sendAndWaitRun store requestAddr replyAddr args transport pre
          batches).result = some v →
        ((replyAddr, v) ∈ pre ∨ ∃ b ∈ batches, (replyAddr, v) ∈ b)
        ∧ storeGet (sendAndWaitRun store requestAddr replyAddr args transport
            pre batches).finalStore replyAddr = none)
    ∧ ((∃ b ∈ batches, ∃ m ∈ b, m.1 = replyAddr) →
        ∃ v, (sendAndWaitRun store requestAddr replyAddr args transport pre
          batches).result = some v)
    ∧ ((∀ m ∈ pre, m.1 ≠ replyAddr) → (∀ b ∈ batches, ∀ m ∈ b, m.1 ≠ replyAddr) →
        (sendAndWaitRun store requestAddr replyAddr args transport pre
          batches).result = none
        ∧ (sendAndWaitRun store requestAddr replyAddr args transport pre
          batches).warnedTimeout = true) := by
  refine ⟨?_, ?_, ?_, ?_, ?_⟩
  · simp only [sendAndWaitRun, storeErase_idem]
  · simp only [sendAndWaitRun_eq_parts]
    cases transport <;> rfl
  · intro v h
    simp only [sendAndWaitRun_eq_parts] at h ⊢
    rcases hS : pollLoop replyAddr
        (applyDeliveries (storeErase store replyAddr) pre) batches with ⟨w, s2⟩ | s2
    · rw [hS] at h
      simp only [PollOutcome.val] at h
      injection h with h
      subst h
      refine ⟨run_found_mem store replyAddr pre batches _ s2 hS, ?_⟩
      simp only [PollOutcome.store]
      exact pollLoop_found_store_none replyAddr batches _ _ s2 hS
    · rw [hS] at h
      simp only [PollOutcome.val] at h
      exact Option.noConfusion h
  · intro hd
    obtain ⟨v, s2, hS⟩ := pollLoop_found_of_delivery replyAddr batches
      (applyDeliveries (storeErase store replyAddr) pre) hd
    refine ⟨v, ?_⟩
    simp only [sendAndWaitRun_eq_parts]
    rw [hS]
    rfl
  · intro hpre hb
    obtain ⟨s2, hS⟩ := run_timeout store replyAddr pre batches hpre hb
    constructor
    · simp only [sendAndWaitRun_eq_parts]
      rw [hS]
      rfl
    · simp only [sendAndWaitRun_eq_parts]
      rw [hS]
      rfl

/-- Witness for C1: a run with a reply delivered before the second poll
returns exactly that reply, and a run with no delivery returns None with
the timeout warning logged. -/
theorem send_and_wait_correct_witness :
    (∃ v, (sendAndWaitRun [(tempoAddr, [OSCVal.floatV 120])] tempoAddr
        tempoAddr [] (Except.ok ()) []
        [[], [(tempoAddr, [OSCVal.floatV 132])]]).result = some v)
    ∧ ((sendAndWaitRun [(tempoAddr, [OSCVal.floatV 120])] tempoAddr tempoAddr
        [] (Except.ok ()) [] [[]]).result = none
      ∧ (sendAndWaitRun [(tempoAddr, [OSCVal.floatV 120])] tempoAddr tempoAddr
        [] (Except.ok ()) [] [[]]).warnedTimeout = true) :=
  ⟨(send_and_wait_correct [(tempoAddr, [OSCVal.floatV 120])] tempoAddr
      tempoAddr [] (Except.ok ()) []
      [[], [(tempoAddr, [OSCVal.floatV 132])]]).2.2.2.1
      ⟨[(tempoAddr, [OSCVal.floatV 132])], by decide, (tempoAddr, [OSCVal.floatV 132]), by decide, rfl⟩,
    (send_and_wait_correct [(tempoAddr, [OSCVal.floatV 120])] tempoAddr
      tempoAddr [] (Except.ok ()) [] [[]]).2.2.2.2 (by decide) (by decide)⟩

/-- Counterexample to C3 as stated.  The listener thread runs concurrently
with `send_and_wait`, so a late reply can be written into the store in the
window between the `pending_responses.pop` and the completion of the
`self.send` call (the `preEmitDeliveries` parameter of the embedding).
Here the store already holds a stale value 120.0 for the tempo address, a
message carrying 999.0 lands in that window — before the new request has
been emitted — and the call returns 999.0: a value that was NOT written
after the new request was emitted, and the call did not time out.  The
claim that only a value written after the emit can be returned is
therefore false; only values written after the clear are returned. -/
theorem stale_window_counterexample :
    (sendAndWaitRun [(tempoAddr, [OSCVal.floatV 120])] tempoAddr tempoAddr []
        (Except.ok ()) [(tempoAddr, [OSCVal.floatV 999])] [[]]).result
      = some [OSCVal.floatV 999] := by
  decide

/-- C3 (amended): the entry held in the store when `send_and_wait` is
invoked is removed before the request is emitted and is never returned
(the run is identical on the pre-erased store); the call returns only a
value the listener wrote after that removal — in the pop-to-send window or
before a poll — or times out with None. -/
theorem stale_clearing_amended (store : Store) (requestAddr replyAddr : String)
    (args : Args) (transport : Except String Unit) (pre : List Msg)
    (batches : List (List Msg)) :
    sendAndWaitRun store requestAddr replyAddr args transport pre batches
      = sendAndWaitRun (storeErase store replyAddr) requestAddr replyAddr args
          transport pre batches
    ∧ (∀ v, (sendAndWaitRun store requestAddr replyAddr args transport pre
          batches).result = some v →
        ((replyAddr, v) ∈ pre ∨ ∃ b ∈ batches, (replyAddr, v) ∈ b)) := by
  constructor
  · simp only [sendAndWaitRun, storeErase_idem]
  · intro v h
    simp only [sendAndWaitRun_eq_parts] at h
    rcases hS : pollLoop replyAddr
        (applyDeliveries (storeErase store replyAddr) pre) batches with ⟨w, s2⟩ | s2
    · rw [hS] at h
      simp only [PollOutcome.val] at h
      injection h with h
      subst h
      exact run_found_mem store replyAddr pre batches _ s2 hS
    · rw [hS] at h
      simp only [PollOutcome.val] at h
      exact Option.noConfusion h

/-- Witness for the amended C3: a returned value is traced back to a
listener delivery. -/
theorem stale_clearing_amended_witness :
    (numTracksAddr, [OSCVal.intV 4]) ∈ ([] : List Msg)
    ∨ ∃ b ∈ [[(numTracksAddr, [OSCVal.intV 4])]], (numTracksAddr, [OSCVal.intV 4]) ∈ b :=
  (stale_clearing_amended [] numTracksAddr numTracksAddr [] (Except.ok ()) []
      [[(numTracksAddr, [OSCVal.intV 4])]]).2 [OSCVal.intV 4] (by decide)

/-- C4: `send` wraps the transport call in a catch-all except-branch: for
every address, argument list and transport outcome the caller of `send`
observes a normal return (and the error branch logs when the transport
raised); a failed emit inside `send_and_wait` changes nothing about the
run — it is indistinguishable from a successful emit — and when the peer
consequently never replies, the caller experiences it exactly as a
timeout (None). -/
theorem send_swallows_errors (address : String) (args : Args)
    (transport : Except String Unit) (e : String) (store : Store)
    (replyAddr : String) (pre : List Msg) (batches : List (List Msg)) :
    (sendRun address args transport).returned = Except.ok ()
    ∧ (sendRun address args (Except.error e)).loggedError = true
    ∧ sendAndWaitRun store address replyAddr args (Except.error e) pre batches
      = sendAndWaitRun store address replyAddr args (Except.ok ()) pre batches
    ∧ ((∀ m ∈ pre, m.1 ≠ replyAddr) → (∀ b ∈ batches, ∀ m ∈ b, m.1 ≠ replyAddr) →
        (sendAndWaitRun store address replyAddr args (Except.error e) pre
          batches).result = none) := by
  refine ⟨?_, rfl, ?_, ?_⟩
  · cases transport <;> rfl
  · simp only [sendAndWaitRun_eq_parts, sendRun]
  · intro hpre hb
    obtain ⟨s2, hS⟩ := run_timeout store replyAddr pre batches hpre hb
    simp only [sendAndWaitRun_eq_parts]
    rw [hS]
    rfl

/-- Witness for C4: with a socket error during emit and a silent peer, the
caller of `send_and_wait` sees None, exactly as a timeout. -/
theorem send_swallows_errors_witness :
    (sendAndWaitRun [] tempoAddr tempoAddr [] (Except.error "socket error")
      [] [[], []]).result = none :=
  (send_swallows_errors tempoAddr [] (Except.ok ()) "socket error" []
      tempoAddr [] [[], []]).2.2.2 (by decide) (by decide)

/-- C5: pending-reply store operations are framed per address — a put or
erase at one address leaves every other address unchanged — and a
`send_and_wait` run on reply address A is insensitive to deliveries for
other addresses (dropping them changes nothing), while any value it
returns was delivered to A itself.  Hence concurrent calls on distinct
reply addresses each receive only their own reply, under any
interleaving. -/
theorem store_frame_per_address (s : Store) (a b : String) (v : Args)
    (h : b ≠ a) (store : Store) (requestAddr : String) (args : Args)
    (transport : Except String Unit) (pre : List Msg)
    (batches : List (List Msg)) :
    storeGet (storePut s a v) b = storeGet s b
    ∧ storeGet (storeErase s a) b = storeGet s b
    ∧ (sendAndWaitRun store requestAddr a args transport pre batches).result
      = (sendAndWaitRun store requestAddr a args transport (onlyTo a pre)
          (batches.map (onlyTo a))).result
    ∧ (∀ w, (sendAndWaitRun store requestAddr a args transport pre
          batches).result = some w →
        (a, w) ∈ pre ∨ ∃ bb ∈ batches, (a, w) ∈ bb) := by
  refine ⟨storeGet_put_ne s a b v h, storeGet_erase_ne s a b h, ?_, ?_⟩
  · simp only [sendAndWaitRun_eq_parts]
    apply pollLoop_val_onlyTo
    rcases hl : lastTo pre a with _ | u
    · rw [applyDeliveries_get_none pre _ a hl,
        applyDeliveries_get_none (onlyTo a pre) _ a
          (lastTo_onlyTo pre a ▸ hl)]
    · rw [applyDeliveries_get_some pre _ a u hl,
        applyDeliveries_get_some (onlyTo a pre) _ a u
          (lastTo_onlyTo pre a ▸ hl)]
  · intro w hw
    simp only [sendAndWaitRun_eq_parts] at hw
    rcases hS : pollLoop a (applyDeliveries (storeErase store a) pre) batches
        with ⟨u, s2⟩ | s2
    · rw [hS] at hw
      simp only [PollOutcome.val] at hw
      injection hw with hw
      subst hw
      exact run_found_mem store a pre batches _ s2 hS
    · rw [hS] at hw
      simp only [PollOutcome.val] at hw
      exact Option.noConfusion hw

/-- Witness for C5: a run on the tempo address ignores an interleaved
delivery for the track-count address and returns a value delivered to the
tempo address itself. -/
theorem store_frame_per_address_witness :
    storeGet (storePut [] tempoAddr [OSCVal.floatV 132]) numTracksAddr
      = storeGet ([] : Store) numTracksAddr
    ∧ ((tempoAddr, [OSCVal.floatV 132]) ∈ ([] : List Msg)
      ∨ ∃ bb ∈ [[(numTracksAddr, [OSCVal.intV 4]), (tempoAddr, [OSCVal.floatV 132])]],
          (tempoAddr, [OSCVal.floatV 132]) ∈ bb) :=
  ⟨(store_frame_per_address [] tempoAddr numTracksAddr [OSCVal.floatV 132]
      (by decide) [] tempoAddr [] (Except.ok ()) [] [[]]).1,
    (store_frame_per_address [] tempoAddr numTracksAddr [OSCVal.floatV 132]
      (by decide) [] tempoAddr [] (Except.ok ()) []
      [[(numTracksAddr, [OSCVal.intV 4]), (tempoAddr, [OSCVal.floatV 132])]]).2.2.2
      [OSCVal.floatV 132] (by decide)⟩

/-- A client after a successful `connect`: the listener loop is running on
a thread, the inbound socket is bound, the outbound socket is open. -/
def connectedClient : ClientSt :=
  { server := some { loopRunning := true, socketBound := true }
    serverThread := some { alive := true }
    sendSocketOpen := true }

/-- Counterexample to C6 as stated.  `disconnect` calls only
`server.shutdown()` (which stops the serve_forever loop but, per the
socketserver contract, does not close the socket — that would take
`server_close()`, which the code never calls) and `server_thread.join`;
the outbound `SimpleUDPClient` socket is never touched.  After
disconnecting a connected client, the inbound listening socket is still
bound and the outbound socket still open: neither endpoint is released. -/
theorem disconnect_keeps_sockets :
    (disconnectRun connectedClient).server
      = some { loopRunning := false, socketBound := true }
    ∧ (disconnectRun connectedClient).sendSocketOpen = true := by
  decide

/-- C6 (amended): `disconnect` stops the receive loop and joins the
listener thread, producing no error (it is a total state transformation),
and it is idempotent — the state after two calls equals the state after
one, with no running listener left; it does not, however, close either
socket (both endpoint flags are left as they were). -/
theorem disconnect_idempotent (c : ClientSt) :
    disconnectRun (disconnectRun c) = disconnectRun c
    ∧ (∀ sv, (disconnectRun c).server = some sv → sv.loopRunning = false)
    ∧ (∀ t, (disconnectRun c).serverThread = some t → t.alive = false)
    ∧ (∀ sv, c.server = some sv →
        (disconnectRun c).server = some { loopRunning := false, socketBound := sv.socketBound })
    ∧ (disconnectRun c).sendSocketOpen = c.sendSocketOpen := by
  obtain ⟨sv, th, sock⟩ := c
  rcases sv with _ | sv <;> rcases th with _ | th <;>
    simp [disconnectRun, serverShutdown, threadJoin]

/-- Witness for the amended C6 at a concrete connected client. -/
theorem disconnect_idempotent_witness :
    ({ loopRunning := false, socketBound := true } : ServerSt).loopRunning = false
    ∧ ({ alive := false } : ThreadSt).alive = false :=
  ⟨(disconnect_idempotent connectedClient).2.1
      { loopRunning := false, socketBound := true } (by decide),
    (disconnect_idempotent connectedClient).2.2.1 { alive := false } (by decide)⟩

/-- C7: for every inbound message the default handler performs an
unconditional overwrite — after `_handle_live_response(address, args)`
the store maps the address to exactly this message's args, whatever it
held before, every other address is untouched, and a second message to
the same address replaces the first (single slot, no queueing, no
history). -/
theorem handle_unconditional_overwrite (store : Store)
    (handlers : HandlerTable) (a b : String) (args args2 : Args)
    (h : b ≠ a) :
    storeGet (handleLiveResponse store handlers a args).store a = some args
    ∧ storeGet (handleLiveResponse store handlers a args).store b = storeGet store b
    ∧ storeGet (handleLiveResponse
        (handleLiveResponse store handlers a args).store handlers a args2).store a
      = some args2 := by
  refine ⟨?_, ?_, ?_⟩
  · simp [handleLiveResponse]
  · simp only [handleLiveResponse]
    exact storeGet_put_ne store a b args h
  · simp [handleLiveResponse]

/-- Witness for C7 at a concrete store and message. -/
theorem handle_unconditional_overwrite_witness :
    storeGet (handleLiveResponse [(tempoAddr, [OSCVal.floatV 100])] []
      tempoAddr [OSCVal.floatV 132]).store tempoAddr = some [OSCVal.floatV 132] :=
  (handle_unconditional_overwrite [(tempoAddr, [OSCVal.floatV 100])] []
    tempoAddr numTracksAddr [OSCVal.floatV 132] [] (by decide)).1

/-- C8: for every message matched by the catch-all "/live/*" pattern the
dispatcher runs `_handle_live_response`, and inside it all matching
callbacks fire: the default behaviour writes the args into the
pending-reply store, and when an exact-address custom handler is
registered for the address it is invoked as well, with the same args —
the store write happens whether or not a handler is registered, and the
handler invocation does not suppress the write. -/
theorem dispatch_both_callbacks (store : Store) (handlers : HandlerTable)
    (a : String) (args : Args) (hid : Nat)
    (h : lookupFirst handlers a = some hid) :
    storeGet (handleLiveResponse store handlers a args).store a = some args
    ∧ (handleLiveResponse store handlers a args).calls = [(hid, args)]
    ∧ (∀ handlers2 : HandlerTable,
        storeGet (handleLiveResponse store handlers2 a args).store a = some args) := by
  refine ⟨?_, ?_, ?_⟩
  · simp [handleLiveResponse]
  · simp [handleLiveResponse, h]
  · intro handlers2
    simp [handleLiveResponse]

/-- Witness for C8: with a custom handler registered on the exact tempo
address, a dispatched tempo message both updates the store and invokes
the handler with the same args. -/
theorem dispatch_both_callbacks_witness :
    storeGet (handleLiveResponse [] [(tempoAddr, 7)] tempoAddr
      [OSCVal.floatV 132]).store tempoAddr = some [OSCVal.floatV 132]
    ∧ (handleLiveResponse [] [(tempoAddr, 7)] tempoAddr
      [OSCVal.floatV 132]).calls = [(7, [OSCVal.floatV 132])] :=
  ⟨(dispatch_both_callbacks [] [(tempoAddr, 7)] tempoAddr
      [OSCVal.floatV 132] 7 (by decide)).1,
    (dispatch_both_callbacks [] [(tempoAddr, 7)] tempoAddr
      [OSCVal.floatV 132] 7 (by decide)).2.1⟩

/-- Counterexample to C2 as stated.  When the `BlockingOSCUDPServer`
constructor raises (receive port already bound), `connect` catches the
exception in its except-branch and returns normally with False — it does
not surface a raised error to the caller, contradicting the claim that
the open operation fails by raising. -/
theorem connect_bind_failure_returns_false :
    (connectRun (Except.error "[Errno 98] Address already in use") []
      (Except.ok ()) [] []).1 = Except.ok false := rfl

/-- C2 (amended): when the listening endpoint cannot be bound, `connect`
catches the constructor exception and returns False (a normal return, not
a raised error); no partial state is left behind — `self.server` and
`self.server_thread` keep their `__init__` value None, so no listener is
running. -/
theorem connect_bind_failure_amended (e : String) (store : Store)
    (transport : Except String Unit) (pre : List Msg)
    (batches : List (List Msg)) :
    connectRun (Except.error e) store transport pre batches
      = (Except.ok false,
          { server := none, serverThread := none, sendSocketOpen := true }) := rfl

/-- C9: with the bind succeeding, `connect` returns True exactly when the
test query on "/live/song/get/tempo" (the shadowing second definition of
`get_live_version`, with its 2.0-second timeout) receives a reply; when
the bind succeeds but the peer never replies it returns False — a normal
return, never a raised error — even though the listener state (server and
thread) has already been set up and started. -/
theorem connect_requires_test_reply (store : Store)
    (transport : Except String Unit) (pre : List Msg)
    (batches : List (List Msg)) (bind : Except String Unit) :
    ((connectRun (Except.ok ()) store transport pre batches).1 = Except.ok true
      ↔ (sendAndWaitRun store tempoAddr tempoAddr [] transport pre
          batches).result.isSome = true)
    ∧ ((sendAndWaitRun store tempoAddr tempoAddr [] transport pre
          batches).result = none →
        (connectRun (Except.ok ()) store transport pre batches).1 = Except.ok false
        ∧ (connectRun (Except.ok ()) store transport pre batches).2.serverThread
            = some { alive := true }
        ∧ (connectRun (Except.ok ()) store transport pre batches).2.server
            = some { loopRunning := true, socketBound := true })
    ∧ (∃ flag : Bool, (connectRun bind store transport pre batches).1
        = Except.ok flag)
    ∧ getLiveVersionTimeout = 2 := by
  refine ⟨?_, ?_, ?_, rfl⟩
  · rcases hr : (sendAndWaitRun store tempoAddr tempoAddr [] transport pre
        batches).result with _ | v
    · simp [connectRun, getLiveVersionRun, hr]
    · simp [connectRun, getLiveVersionRun, hr]
  · intro hr
    refine ⟨?_, ?_, ?_⟩ <;> simp [connectRun, getLiveVersionRun, hr]
  · rcases bind with e | u
    · exact ⟨false, rfl⟩
    · rcases hr : (sendAndWaitRun store tempoAddr tempoAddr [] transport pre
          batches).result with _ | v
      · exact ⟨false, by simp [connectRun, getLiveVersionRun, hr]⟩
      · exact ⟨true, by simp [connectRun, getLiveVersionRun, hr]⟩

/-- Witness for C9: bind succeeds, the peer stays silent, and `connect`
returns False with the listener server and thread set up and running. -/
theorem connect_requires_test_reply_witness :
    (connectRun (Except.ok ()) [] (Except.ok ()) [] []).1 = Except.ok false
    ∧ (connectRun (Except.ok ()) [] (Except.ok ()) [] []).2.serverThread
        = some { alive := true }
    ∧ (connectRun (Except.ok ()) [] (Except.ok ()) [] []).2.server
        = some { loopRunning := true, socketBound := true } :=
  (connect_requires_test_reply [] (Except.ok ()) [] [] (Except.ok ())).2.1 rfl

/-- C10: `get_tempo` and `get_track_count` postprocess with
`response[0] if response else None`; an empty-args reply is falsy in
Python exactly like None, so it maps to None just as a timeout does —
indistinguishable at the public interface — while a non-empty reply
yields its first argument. -/
theorem empty_reply_like_timeout (store : Store)
    (transport : Except String Unit) (pre : List Msg)
    (batches : List (List Msg)) :
    ((sendAndWaitRun store tempoAddr tempoAddr [] transport pre
        batches).result = some [] →
      getTempoRun store transport pre batches = none)
    ∧ ((sendAndWaitRun store tempoAddr tempoAddr [] transport pre
        batches).result = none →
      getTempoRun store transport pre batches = none)
    ∧ (∀ a rest, (sendAndWaitRun store tempoAddr tempoAddr [] transport pre
        batches).result = some (a :: rest) →
      getTempoRun store transport pre batches = some a)
    ∧ ((sendAndWaitRun store numTracksAddr numTracksAddr [] transport pre
        batches).result = some [] →
      getTrackCountRun store transport pre batches = none)
    ∧ ((sendAndWaitRun store numTracksAddr numTracksAddr [] transport pre
        batches).result = none →
      getTrackCountRun store transport pre batches = none)
    ∧ (∀ a rest, (sendAndWaitRun store numTracksAddr numTracksAddr []
        transport pre batches).result = some (a :: rest) →
      getTrackCountRun store transport pre batches = some a) := by
  refine ⟨?_, ?_, ?_, ?_, ?_, ?_⟩
  · intro h
    simp [getTempoRun, firstArgOrNone, h]
  · intro h
    simp [getTempoRun, firstArgOrNone, h]
  · intro a rest h
    simp [getTempoRun, firstArgOrNone, h]
  · intro h
    simp [getTrackCountRun, firstArgOrNone, h]
  · intro h
    simp [getTrackCountRun, firstArgOrNone, h]
  · intro a rest h
    simp [getTrackCountRun, firstArgOrNone, h]

/-- Witness for C10: a reply with an empty args tuple makes `get_tempo`
return None, the same value as a pure timeout; a non-empty reply yields
its first argument. -/
theorem empty_reply_like_timeout_witness :
    getTempoRun [] (Except.ok ()) [] [[(tempoAddr, [])]] = none
    ∧ getTempoRun [] (Except.ok ()) [] [] = none
    ∧ getTrackCountRun [] (Except.ok ()) []
        [[(numTracksAddr, [OSCVal.intV 4])]] = some (OSCVal.intV 4) :=
  ⟨(empty_reply_like_timeout [] (Except.ok ()) [] [[(tempoAddr, [])]]).1
      (by decide),
    (empty_reply_like_timeout [] (Except.ok ()) [] []).2.1 rfl,
    (empty_reply_like_timeout [] (Except.ok ()) []
        [[(numTracksAddr, [OSCVal.intV 4])]]).2.2.2.2.2 (OSCVal.intV 4) []
      (by decide)⟩
